import Mathlib

/-!
Shallow embedding of the Streaming Session Manager of the `venusofficial`
chat client (source: `src/components/ChatMessage.tsx` App component,
`src/services/geminiService.ts`, `src/types.ts`).

Modelling conventions:
* JavaScript `Date` values are modelled by their millisecond instant (`Nat`);
  successive `Date.now()` calls inside one send are modelled by the
  parameters `now` (user message / new session) and `errTime` (error message),
  with the model-message id `Date.now() + 1` becoming `now + 1`.
* Optional TS fields (`isStreaming?`, `isError?`, `image?`, ...) become
  `Bool` with default `false` or `Option` with default `none`; a missing
  field and a `false`/`none` field are observationally equal in the program.
* The lazy fragment stream of `sendMessageStream` is modelled by
  `StreamResult`: either the full finite list of chunks (`ok`) or the list of
  chunks consumed before the stream threw (`err`).
-/

/-- Role enum from `src/types.ts`. -/
inductive Role where
  | user
  | model
deriving DecidableEq, Repr

/-- Web citation source from `src/types.ts` (`GroundingWebSource`). -/
structure GroundingWebSource where
  uri : String
  title : String
deriving DecidableEq, Repr

/-- One grounding chunk (`{ web?: GroundingWebSource }`). -/
structure GroundingChunkItem where
  web : Option GroundingWebSource := none
deriving DecidableEq, Repr

/-- Grounding metadata from `src/types.ts` (`GroundingMetadata`). -/
structure GroundingMetadata where
  groundingChunks : List GroundingChunkItem := []
deriving DecidableEq, Repr

/-- Message record from `src/types.ts`; `timestamp` is the ms instant of the
`Date`. -/
structure Message where
  id : String
  role : Role
  content : String
  timestamp : Nat
  isStreaming : Bool := false
  isError : Bool := false
  groundingMetadata : Option GroundingMetadata := none
  image : Option String := none
  attachments : List String := []
deriving DecidableEq, Repr

/-- Chat session record from `src/types.ts`. -/
structure ChatSession where
  id : String
  title : String
  messages : List Message
  createdAt : Nat
deriving DecidableEq, Repr

/-- The App component state relevant to the session manager:
`sessions`, `currentSessionId`, `messages`, `isLoading`. -/
structure AppState where
  sessions : List ChatSession
  currentSessionId : Option String
  messages : List Message
  isLoading : Bool
deriving DecidableEq, Repr

/-- Inline image payload of a response part (`part.inlineData`). -/
structure InlineData where
  mimeType : String
  data : String
deriving DecidableEq, Repr

/-- One part of a response chunk; only `inlineData` is inspected by the
merge loop. -/
structure ResponsePart where
  inlineData : Option InlineData := none
deriving DecidableEq, Repr

/-- One streamed response fragment, with the three projections the merge
loop reads: `chunk.text`, `chunk.candidates?.[0]?.groundingMetadata`,
`chunk.candidates?.[0]?.content?.parts`. -/
structure Chunk where
  text : Option String := none
  groundingMetadata : Option GroundingMetadata := none
  parts : Option (List ResponsePart) := none
deriving DecidableEq, Repr

/-- Outcome of consuming the fragment stream: all chunks delivered, or the
chunks consumed before the stream raised. -/
inductive StreamResult where
  | ok (chunks : List Chunk)
  | err (consumed : List Chunk)
deriving DecidableEq, Repr

/-- Sentinel title of a fresh session (`'Nova Conversa'`). -/
def SENTINEL_TITLE : String := "Nova Conversa"

/-- Fixed user-facing failure notice appended on a generation error. -/
def FAILURE_NOTICE : String :=
  "Desculpe, ocorreu um erro ao processar sua solicitação. Por favor, tente novamente."

/-- Update the first element satisfying `p` (the
`findIndex` + `newMessages[i] = updated` idiom); no match leaves the list
unchanged. -/
def updateFirst (p : α → Bool) (f : α → α) : List α → List α
  | [] => []
  | x :: xs => if p x then f x :: xs else x :: updateFirst p f xs

/-- Data-URI encoding used for inline images:
`data:<mime>;base64,<data>`. -/
def dataURI (d : InlineData) : String :=
  "data:" ++ d.mimeType ++ ";base64," ++ d.data

/-- The `for (const part of parts) if (part.inlineData) chunkImage = ...`
loop: the last part carrying `inlineData` wins. -/
def imgFold (ps : List ResponsePart) (acc : Option String) : Option String :=
  ps.foldl
    (fun a p =>
      match p.inlineData with
      | some d => some (dataURI d)
      | none => a)
    acc

/-- The `chunkImage` value computed for a chunk (`undefined` when there are no parts
or no part carries `inlineData`). -/
def chunkImage (c : Chunk) : Option String :=
  match c.parts with
  | none => none
  | some ps => imgFold ps none

/-- Fold one fragment into one message, exactly as the `setMessages`
updater builds `updatedMessage`: append `chunk.text || ''` to `content`,
then conditionally replace `groundingMetadata`, then conditionally replace
`image`. -/
def applyChunk (c : Chunk) (m : Message) : Message :=
  let m1 : Message := { m with content := m.content ++ c.text.getD "" }
  let m2 : Message :=
    match c.groundingMetadata with
    | some g => { m1 with groundingMetadata := some g }
    | none => m1
  match chunkImage c with
  | some img => { m2 with image := some img }
  | none => m2

/-- One iteration of the streaming loop on the message list: find the
message with id `mid` and fold the chunk into it. -/
def mergeChunk (mid : String) (msgs : List Message) (c : Chunk) : List Message :=
  updateFirst (fun m => decide (m.id = mid)) (applyChunk c) msgs

/-- Step 5 of `handleSendMessage`: clear `isStreaming` on the message with
id `mid`. -/
def finalizeStreaming (mid : String) (msgs : List Message) : List Message :=
  updateFirst (fun m => decide (m.id = mid)) (fun m => { m with isStreaming := false }) msgs

/-- JavaScript `String.prototype.trim`: strip leading and trailing
whitespace (modelled over the character list so it is kernel-computable;
the inputs involved use only ASCII whitespace, where the JS and Lean
whitespace sets agree). -/
def jsTrim (s : String) : String :=
  String.mk (((s.data.dropWhile Char.isWhitespace).reverse.dropWhile
    Char.isWhitespace).reverse)

/-- The user message appended in step 2 of `handleSendMessage`. -/
def mkUserMsg (now : Nat) (content : String) (attachments : List String) : Message :=
  { id := Nat.repr now
    role := Role.user
    content := jsTrim content
    attachments := attachments
    timestamp := now }

/-- The placeholder model message appended in step 3 of
`handleSendMessage` (id `Date.now() + 1`, empty content, streaming). -/
def mkModelMsg (now : Nat) : Message :=
  { id := Nat.repr (now + 1)
    role := Role.model
    content := ""
    timestamp := now
    isStreaming := true }

/-- The error message appended in the catch block of `handleSendMessage`. -/
def mkErrorMsg (errTime : Nat) : Message :=
  { id := Nat.repr errTime
    role := Role.model
    content := FAILURE_NOTICE
    timestamp := errTime
    isError := true }

/-- The no-op guard of `handleSendMessage`:
`(!content.trim() && attachments.length === 0) || isLoading`. -/
def sendGuardFails (st : AppState) (content : String) (attachments : List String) : Bool :=
  (jsTrim content = "" && attachments.isEmpty) || st.isLoading

/-- Step 1 of `handleSendMessage`: if no session is active, synthesize one
(sentinel title, empty messages, current time) and prepend it. -/
def ensureSession (st : AppState) (now : Nat) : AppState :=
  match st.currentSessionId with
  | some _ => st
  | none =>
      { st with
        sessions :=
          { id := Nat.repr now
            title := SENTINEL_TITLE
            messages := []
            createdAt := now } :: st.sessions
        currentSessionId := some (Nat.repr now) }

/-- Consume the stream outcome against the message list: merge every
delivered chunk; on normal exhaustion clear `isStreaming`; on failure stop
merging and append the fixed error message (the catch block never touches
the placeholder). -/
def runStream (mid : String) (errTime : Nat) (msgs : List Message) :
    StreamResult → List Message
  | StreamResult.ok chunks =>
      finalizeStreaming mid (chunks.foldl (mergeChunk mid) msgs)
  | StreamResult.err consumed =>
      (consumed.foldl (mergeChunk mid) msgs) ++ [mkErrorMsg errTime]

/-- The whole `handleSendMessage` run, from initial state to the state
after the `finally` block (`isLoading` cleared). -/
def sendMessage (st : AppState) (content : String) (attachments : List String)
    (now errTime : Nat) (res : StreamResult) : AppState :=
  if sendGuardFails st content attachments then st
  else
    let st1 := ensureSession st now
    let msgs1 := st1.messages ++ [mkUserMsg now content attachments]
    let msgs2 := msgs1 ++ [mkModelMsg now]
    { st1 with
      messages := runStream (Nat.repr (now + 1)) errTime msgs2 res
      isLoading := false }

/-- The message-list value after each merge step of the streaming loop
(one entry per delivered chunk). -/
def mergeStates (mid : String) (msgs : List Message) : List Chunk → List (List Message)
  | [] => []
  | c :: cs =>
      let m := mergeChunk mid msgs c
      m :: mergeStates mid m cs

/-- Every observable message-list state of one `handleSendMessage` run, in
order: after appending the user message, after appending the placeholder,
after each merged chunk, and after the terminal update (finalize or error
append). Empty when the no-op guard rejects the send. -/
def sendMessageStates (st : AppState) (content : String) (attachments : List String)
    (now errTime : Nat) (res : StreamResult) : List (List Message) :=
  if sendGuardFails st content attachments then []
  else
    let st1 := ensureSession st now
    let mid := Nat.repr (now + 1)
    let msgs1 := st1.messages ++ [mkUserMsg now content attachments]
    let msgs2 := msgs1 ++ [mkModelMsg now]
    msgs1 :: msgs2 ::
      (match res with
       | StreamResult.ok chunks =>
           mergeStates mid msgs2 chunks ++
             [finalizeStreaming mid (chunks.foldl (mergeChunk mid) msgs2)]
       | StreamResult.err consumed =>
           mergeStates mid msgs2 consumed ++
             [(consumed.foldl (mergeChunk mid) msgs2) ++ [mkErrorMsg errTime]])

/-- Number of messages currently flagged as streaming. -/
def countStreaming (msgs : List Message) : Nat :=
  msgs.countP (fun m => m.isStreaming)

/-- Model of `handleSelectSession`: rejected outright while a send is in flight;
otherwise switch the active id and working message list. -/
def handleSelectSession (st : AppState) (s : ChatSession) : AppState :=
  if st.isLoading then st
  else { st with currentSessionId := some s.id, messages := s.messages }

/-- Title truncation of the first user message:
`content.slice(0, 30) + (content.length > 30 ? '...' : '')` (the ASCII
titles involved make code-unit and character counts agree). -/
def truncateTitle (s : String) : String :=
  s.take 30 ++ (if 30 < s.length then "..." else "")

/-- Title derivation of the session-sync effect: replace the sentinel
title by the truncated first user message, when one exists. -/
def deriveTitle (title : String) (messages : List Message) : String :=
  if title = SENTINEL_TITLE && !messages.isEmpty then
    match messages.find? (fun m => decide (m.role = Role.user)) with
    | some m => truncateTitle m.content
    | none => title
  else title

/-- The session-sync effect: reconcile the working message list (and a
possibly re-derived title) into the active session of the store; a no-op
without an active session or with an empty message list. -/
def syncSessions (sessions : List ChatSession) (currentSessionId : Option String)
    (messages : List Message) : List ChatSession :=
  match currentSessionId with
  | none => sessions
  | some sid =>
      if messages.isEmpty then sessions
      else
        sessions.map (fun s =>
          if s.id = sid then
            { s with messages := messages, title := deriveTitle s.title messages }
          else s)

/-- One text part of a reconstructed exchange turn. -/
structure TextPart where
  text : String
deriving DecidableEq, Repr

/-- One exchange turn handed to `getGeminiChat` as history: role plus text
parts only. -/
structure HistoryTurn where
  role : Role
  parts : List TextPart
deriving DecidableEq, Repr

/-- The history projection of the context-rebuild effect:
`messages.filter(m => !m.isError).map(m => ({ role: m.role, parts: [{ text: m.content }] }))`. -/
def projectHistory (msgs : List Message) : List HistoryTurn :=
  (msgs.filter (fun m => !m.isError)).map
    (fun m => { role := m.role, parts := [{ text := m.content }] })

/-- Spec-side reformulation of the projection: one turn per non-error
message, in message order, carrying only that message's role and text
content; error messages contribute no turn. Stated for comparison with
`projectHistory`. -/
def projectHistoryOneTurnPerMsg (msgs : List Message) : List HistoryTurn :=
  msgs.filterMap (fun m =>
    if m.isError then none
    else some { role := m.role, parts := [{ text := m.content }] })

/-- Serialized form of a message (the JSON record written by
`JSON.stringify`); a `Date` stringifies to its ISO-8601 rendering, which
denotes the same millisecond instant, so the stored timestamp is modelled
by that instant. -/
structure StoredMessage where
  id : String
  role : Role
  content : String
  timestamp : Nat
  isStreaming : Bool := false
  isError : Bool := false
  groundingMetadata : Option GroundingMetadata := none
  image : Option String := none
  attachments : List String := []
deriving DecidableEq, Repr

/-- Serialized form of a session. -/
structure StoredSession where
  id : String
  title : String
  messages : List StoredMessage
  createdAt : Nat
deriving DecidableEq, Repr

/-- Serialize one message (every field is written by `JSON.stringify`). -/
def serializeMessage (m : Message) : StoredMessage :=
  { id := m.id
    role := m.role
    content := m.content
    timestamp := m.timestamp
    isStreaming := m.isStreaming
    isError := m.isError
    groundingMetadata := m.groundingMetadata
    image := m.image
    attachments := m.attachments }

/-- Rehydrate one message: `new Date(m.timestamp)` reconstructs the same
instant; all other fields are spread through unchanged. -/
def hydrateMessage (m : StoredMessage) : Message :=
  { id := m.id
    role := m.role
    content := m.content
    timestamp := m.timestamp
    isStreaming := m.isStreaming
    isError := m.isError
    groundingMetadata := m.groundingMetadata
    image := m.image
    attachments := m.attachments }

/-- Serialize one session. -/
def serializeSession (s : ChatSession) : StoredSession :=
  { id := s.id
    title := s.title
    messages := s.messages.map serializeMessage
    createdAt := s.createdAt }

/-- Rehydrate one session (`{ ...session, messages: session.messages.map(...) }`). -/
def hydrateSession (s : StoredSession) : ChatSession :=
  { id := s.id
    title := s.title
    messages := s.messages.map hydrateMessage
    createdAt := s.createdAt }

/-- Stable insertion step of `sort((a, b) => b.createdAt - a.createdAt)`:
descending by `createdAt`, equal keys keep their original relative order. -/
def insertByCreatedAtDesc (s : ChatSession) : List ChatSession → List ChatSession
  | [] => [s]
  | t :: ts =>
      if t.createdAt ≤ s.createdAt then s :: t :: ts
      else t :: insertByCreatedAtDesc s ts

/-- Stable sort by `createdAt` descending (model of the ES2019+ stable
`Array.prototype.sort` used on load). -/
def sortByCreatedAtDesc : List ChatSession → List ChatSession
  | [] => []
  | s :: ss => insertByCreatedAtDesc s (sortByCreatedAtDesc ss)

/-- Model of `save`: `JSON.stringify(sessions)` — the full collection, in order. -/
def saveSessions (ss : List ChatSession) : List StoredSession :=
  ss.map serializeSession

/-- Model of `load`: parse, rehydrate every message's timestamp, then sort newest
first by `createdAt`. -/
def loadSessions (stored : List StoredSession) : List ChatSession :=
  sortByCreatedAtDesc (stored.map hydrateSession)

set_option maxRecDepth 10000

/-- Fold a whole chunk list into one message (the effect of the streaming
loop on the in-flight message alone). -/
def applyChunks (m : Message) (cs : List Chunk) : Message :=
  cs.foldl (fun acc c => applyChunk c acc) m

/-- Concatenation of a list of strings in delivery order. -/
def concatAll (ts : List String) : String :=
  ts.foldl (fun a b => a ++ b) ""

/-- A fragment carrying only a text delta. -/
def mkTextChunk (t : String) : Chunk :=
  { text := some t }

theorem updateFirst_append_nomatch (p : α → Bool) (f : α → α) (l1 l2 : List α)
    (h : ∀ x ∈ l1, p x = false) :
    updateFirst p f (l1 ++ l2) = l1 ++ updateFirst p f l2 := by
  induction l1 with
  | nil => rfl
  | cons x xs ih =>
      have hx : p x = false := h x (by simp)
      simp only [List.cons_append, updateFirst, hx, Bool.false_eq_true, if_false,
        List.append_eq]
      rw [ih (fun y hy => h y (by simp [hy]))]

theorem updateFirst_singleton_match (p : α → Bool) (f : α → α) (x : α)
    (h : p x = true) : updateFirst p f [x] = [f x] := by
  simp [updateFirst, h]

theorem applyChunk_id (c : Chunk) (m : Message) : (applyChunk c m).id = m.id := by
  unfold applyChunk
  cases c.groundingMetadata <;> cases chunkImage c <;> rfl

theorem applyChunk_isStreaming (c : Chunk) (m : Message) :
    (applyChunk c m).isStreaming = m.isStreaming := by
  unfold applyChunk
  cases c.groundingMetadata <;> cases chunkImage c <;> rfl

theorem applyChunk_content (c : Chunk) (m : Message) :
    (applyChunk c m).content = m.content ++ c.text.getD "" := by
  unfold applyChunk
  cases c.groundingMetadata <;> cases chunkImage c <;> rfl

theorem applyChunks_id (cs : List Chunk) (m : Message) :
    (applyChunks m cs).id = m.id := by
  induction cs generalizing m with
  | nil => rfl
  | cons c cs ih => simp only [applyChunks, List.foldl_cons] at ih ⊢; rw [ih, applyChunk_id]

theorem foldl_mergeChunk_append (mid : String) (pre : List Message) (m0 : Message)
    (cs : List Chunk) (hpre : ∀ x ∈ pre, x.id ≠ mid) (hm : m0.id = mid) :
    cs.foldl (mergeChunk mid) (pre ++ [m0]) = pre ++ [applyChunks m0 cs] := by
  induction cs generalizing m0 with
  | nil => rfl
  | cons c cs ih =>
      have hstep : mergeChunk mid (pre ++ [m0]) c = pre ++ [applyChunk c m0] := by
        unfold mergeChunk
        rw [updateFirst_append_nomatch _ _ _ _
              (fun x hx => by simp [decide_eq_false_iff_not]; exact hpre x hx)]
        rw [updateFirst_singleton_match _ _ _ (by simp [hm])]
      simp only [List.foldl_cons, hstep]
      rw [ih (applyChunk c m0) (by rw [applyChunk_id]; exact hm)]
      simp [applyChunks]

theorem finalizeStreaming_append (mid : String) (pre : List Message) (m0 : Message)
    (hpre : ∀ x ∈ pre, x.id ≠ mid) (hm : m0.id = mid) :
    finalizeStreaming mid (pre ++ [m0]) = pre ++ [{ m0 with isStreaming := false }] := by
  unfold finalizeStreaming
  rw [updateFirst_append_nomatch _ _ _ _
        (fun x hx => by simp [decide_eq_false_iff_not]; exact hpre x hx)]
  rw [updateFirst_singleton_match _ _ _ (by simp [hm])]

theorem ensureSession_messages (st : AppState) (now : Nat) :
    (ensureSession st now).messages = st.messages := by
  unfold ensureSession
  cases st.currentSessionId <;> rfl

theorem countStreaming_append (l1 l2 : List Message) :
    countStreaming (l1 ++ l2) = countStreaming l1 + countStreaming l2 := by
  simp [countStreaming, List.countP_append]

theorem countStreaming_of_none (l : List Message)
    (h : ∀ m ∈ l, m.isStreaming = false) : countStreaming l = 0 := by
  induction l with
  | nil => rfl
  | cons m ms ih =>
      simp only [countStreaming, List.countP_cons, h m (by simp), if_false,
        Bool.false_eq_true]
      exact ih (fun x hx => h x (by simp [hx]))

theorem countStreaming_updateFirst_eq (p : Message → Bool) (f : Message → Message)
    (l : List Message) (hf : ∀ m, (f m).isStreaming = m.isStreaming) :
    countStreaming (updateFirst p f l) = countStreaming l := by
  induction l with
  | nil => rfl
  | cons m ms ih =>
      by_cases hp : p m = true
      · simp [updateFirst, hp, countStreaming, List.countP_cons, hf]
      · simp only [updateFirst, hp, if_false, Bool.false_eq_true]
        simp only [countStreaming, List.countP_cons] at ih ⊢
        omega

theorem countStreaming_updateFirst_le (p : Message → Bool) (f : Message → Message)
    (l : List Message) (hf : ∀ m, (f m).isStreaming = false) :
    countStreaming (updateFirst p f l) ≤ countStreaming l := by
  induction l with
  | nil => exact Nat.le_refl _
  | cons m ms ih =>
      by_cases hp : p m = true
      · simp only [updateFirst, hp, if_true, countStreaming, List.countP_cons, hf,
          Bool.false_eq_true, if_false]
        simp only [countStreaming] at *
        omega
      · simp only [updateFirst, hp, if_false, Bool.false_eq_true]
        simp only [countStreaming, List.countP_cons] at ih ⊢
        omega

theorem countStreaming_mergeChunk (mid : String) (l : List Message) (c : Chunk) :
    countStreaming (mergeChunk mid l c) = countStreaming l :=
  countStreaming_updateFirst_eq _ _ _ (applyChunk_isStreaming c)

theorem countStreaming_foldl_merge (mid : String) (cs : List Chunk) (l : List Message) :
    countStreaming (cs.foldl (mergeChunk mid) l) = countStreaming l := by
  induction cs generalizing l with
  | nil => rfl
  | cons c cs ih => simp only [List.foldl_cons]; rw [ih, countStreaming_mergeChunk]

theorem countStreaming_mergeStates (mid : String) (cs : List Chunk) (l : List Message) :
    ∀ l' ∈ mergeStates mid l cs, countStreaming l' = countStreaming l := by
  induction cs generalizing l with
  | nil => intro l' hl'; simp [mergeStates] at hl'
  | cons c cs ih =>
      intro l' hl'
      simp only [mergeStates, List.mem_cons] at hl'
      rcases hl' with h | h
      · rw [h, countStreaming_mergeChunk]
      · rw [ih _ _ h, countStreaming_mergeChunk]

theorem countStreaming_finalize_le (mid : String) (l : List Message) :
    countStreaming (finalizeStreaming mid l) ≤ countStreaming l :=
  countStreaming_updateFirst_le _ _ _ (fun _ => rfl)

theorem concatAll_cons_hoist (ts : List String) (s : String) :
    ts.foldl (fun a b => a ++ b) s = s ++ concatAll ts := by
  induction ts generalizing s with
  | nil => simp [concatAll]
  | cons t ts ih =>
      simp only [concatAll, List.foldl_cons]
      rw [ih (s ++ t), ih ("" ++ t)]
      simp [String.append_assoc]

theorem applyChunk_textOnly (t : String) (m : Message) :
    applyChunk (mkTextChunk t) m = { m with content := m.content ++ t } := by
  rfl

theorem applyChunks_textOnly (ts : List String) (m : Message) :
    applyChunks m (ts.map mkTextChunk) = { m with content := m.content ++ concatAll ts } := by
  induction ts generalizing m with
  | nil => simp [applyChunks, concatAll]
  | cons t ts ih =>
      simp only [List.map_cons, applyChunks, List.foldl_cons, applyChunk_textOnly]
      have := ih { m with content := m.content ++ t }
      simp only [applyChunks] at this
      rw [this]
      simp only [concatAll, List.foldl_cons]
      rw [concatAll_cons_hoist ts ("" ++ t)]
      simp [concatAll, String.append_assoc]

theorem runStream_ok_eq (mid : String) (errTime : Nat) (pre : List Message)
    (m0 : Message) (cs : List Chunk)
    (hpre : ∀ x ∈ pre, x.id ≠ mid) (hm : m0.id = mid) :
    runStream mid errTime (pre ++ [m0]) (StreamResult.ok cs) =
      pre ++ [{ applyChunks m0 cs with isStreaming := false }] := by
  simp only [runStream]
  rw [foldl_mergeChunk_append mid pre m0 cs hpre hm]
  exact finalizeStreaming_append mid pre _ hpre (by rw [applyChunks_id]; exact hm)

theorem runStream_err_eq (mid : String) (errTime : Nat) (pre : List Message)
    (m0 : Message) (cs : List Chunk)
    (hpre : ∀ x ∈ pre, x.id ≠ mid) (hm : m0.id = mid) :
    runStream mid errTime (pre ++ [m0]) (StreamResult.err cs) =
      pre ++ [applyChunks m0 cs, mkErrorMsg errTime] := by
  simp only [runStream]
  rw [foldl_mergeChunk_append mid pre m0 cs hpre hm]
  simp

/-- C7: while a send is in flight (`isLoading`), `handleSelectSession` is
a no-op — the active session id, the active message list, and the session
store are all unchanged. -/
theorem selectSession_noop_while_inflight (st : AppState) (s : ChatSession)
    (h : st.isLoading = true) :
    handleSelectSession st s = st ∧
    (handleSelectSession st s).currentSessionId = st.currentSessionId ∧
    (handleSelectSession st s).messages = st.messages ∧
    (handleSelectSession st s).sessions = st.sessions := by
  have : handleSelectSession st s = st := by simp [handleSelectSession, h]
  exact ⟨this, by rw [this], by rw [this], by rw [this]⟩

theorem selectSession_noop_while_inflight_witness :
    handleSelectSession ⟨[], none, [], true⟩ ⟨"s1", "t", [], 5⟩ = ⟨[], none, [], true⟩ :=
  (selectSession_noop_while_inflight ⟨[], none, [], true⟩ ⟨"s1", "t", [], 5⟩ rfl).1

/-- C8: the history handed to the generation client has exactly one turn
per non-error message, in message order, carrying only that message's role
and text content; `isError` messages contribute no turn. -/
theorem history_one_turn_per_non_error_message (msgs : List Message) :
    projectHistory msgs = projectHistoryOneTurnPerMsg msgs := by
  induction msgs with
  | nil => rfl
  | cons m ms ih =>
      by_cases h : m.isError = true
      · simp [projectHistory, projectHistoryOneTurnPerMsg, List.filter_cons,
          List.filterMap_cons, h] at ih ⊢
        exact ih
      · simp [projectHistory, projectHistoryOneTurnPerMsg, List.filter_cons,
          List.filterMap_cons, h] at ih ⊢
        exact ih

/-- C5: while the title is still the sentinel, the derived title is the
first user message's content truncated to 30 characters, with a trailing
ellipsis marker iff the content exceeds 30 characters. -/
theorem title_derived_from_first_user_message (msgs : List Message) (m : Message)
    (hfind : msgs.find? (fun x => decide (x.role = Role.user)) = some m) :
    deriveTitle SENTINEL_TITLE msgs =
      m.content.take 30 ++ (if 30 < m.content.length then "..." else "") := by
  have hne : msgs ≠ [] := by
    rintro rfl
    simp [List.find?] at hfind
  simp [deriveTitle, truncateTitle, hfind, hne]

theorem title_derived_from_first_user_message_witness :
    deriveTitle SENTINEL_TITLE
        [{ id := "1", role := Role.user, content := "Explain recursion in simple terms",
           timestamp := 0 }] = "Explain recursion in simple te..." ∧
    deriveTitle SENTINEL_TITLE
        [{ id := "1", role := Role.user, content := "Hi", timestamp := 0 }] = "Hi" := by
  constructor
  · rw [title_derived_from_first_user_message _
      { id := "1", role := Role.user, content := "Explain recursion in simple terms",
        timestamp := 0 } (by decide)]
    decide
  · rw [title_derived_from_first_user_message _
      { id := "1", role := Role.user, content := "Hi", timestamp := 0 } (by decide)]
    decide

/-- C6: merging a fragment that carries only an inline image payload (no
text delta, no metadata) leaves the in-flight message's content unchanged
and sets its image to the data-URI of that payload, replacing any previous
image. -/
theorem image_only_fragment_replaces_image (c : Chunk) (m : Message) (u : String)
    (htext : c.text = none) (hmeta : c.groundingMetadata = none)
    (himg : chunkImage c = some u) :
    applyChunk c m = { m with image := some u } := by
  unfold applyChunk
  rw [htext, hmeta, himg]
  simp

theorem image_only_fragment_replaces_image_witness :
    applyChunk
        { parts := some [{ inlineData := some { mimeType := "image/png", data := "AAAA" } }] }
        { id := "7", role := Role.model, content := "abc", timestamp := 0,
          isStreaming := true, image := some "data:image/png;base64,OLD" } =
      { id := "7", role := Role.model, content := "abc", timestamp := 0,
        isStreaming := true, image := some "data:image/png;base64,AAAA" } :=
  image_only_fragment_replaces_image _ _ _ rfl rfl rfl

/-- Last part of the list that carries `inlineData` (the loop's overwrite
semantics expressed declaratively). -/
def lastInlineData (ps : List ResponsePart) : Option InlineData :=
  ps.reverse.findSome? (fun p => p.inlineData)

theorem findSomeAppend (l1 l2 : List α) (f : α → Option β) :
    (l1 ++ l2).findSome? f =
      match l1.findSome? f with
      | some b => some b
      | none => l2.findSome? f := by
  induction l1 with
  | nil => simp [List.findSome?]
  | cons x xs ih =>
      simp only [List.cons_append, List.findSome?]
      cases f x <;> simp [ih]

theorem foldrOpt (qs : List ResponsePart) (acc : Option String) :
    qs.foldr
        (fun x y =>
          match x.inlineData with
          | some d => some (dataURI d)
          | none => y) acc =
      match qs.findSome? (fun p => p.inlineData) with
      | some d => some (dataURI d)
      | none => acc := by
  induction qs with
  | nil => rfl
  | cons q qs ih =>
      simp only [List.foldr_cons, List.findSome?]
      cases h : q.inlineData <;> simp [h, ih]

theorem imgFold_eq_lastInline (ps : List ResponsePart) (acc : Option String) :
    imgFold ps acc =
      match lastInlineData ps with
      | some d => some (dataURI d)
      | none => acc := by
  have h1 : imgFold ps acc =
      ps.reverse.foldr
        (fun x y =>
          match x.inlineData with
          | some d => some (dataURI d)
          | none => y) acc := by
    unfold imgFold
    conv_lhs => rw [← List.reverse_reverse ps]
    rw [List.foldl_reverse]
  rw [h1, foldrOpt]
  rfl

/-- C10: when a fragment carries several inline image parts, the merged
message's image is the data-URI of the last part carrying `inlineData`;
earlier inline parts are overwritten without effect. -/
theorem last_inline_image_part_wins (c : Chunk) (m : Message)
    (ps : List ResponsePart) (d : InlineData)
    (hp : c.parts = some ps) (hlast : lastInlineData ps = some d) :
    (applyChunk c m).image = some (dataURI d) := by
  have himg : chunkImage c = some (dataURI d) := by
    simp [chunkImage, hp, imgFold_eq_lastInline, hlast]
  unfold applyChunk
  rw [himg]

theorem last_inline_image_part_wins_witness :
    (applyChunk
        { parts := some
            [{ inlineData := some { mimeType := "image/png", data := "FIRST" } },
             { inlineData := none },
             { inlineData := some { mimeType := "image/jpeg", data := "SECOND" } }] }
        { id := "7", role := Role.model, content := "", timestamp := 0,
          isStreaming := true }).image = some "data:image/jpeg;base64,SECOND" := by
  have h := last_inline_image_part_wins
    { parts := some
        [{ inlineData := some { mimeType := "image/png", data := "FIRST" } },
         { inlineData := none },
         { inlineData := some { mimeType := "image/jpeg", data := "SECOND" } }] }
    { id := "7", role := Role.model, content := "", timestamp := 0,
      isStreaming := true }
    [{ inlineData := some { mimeType := "image/png", data := "FIRST" } },
     { inlineData := none },
     { inlineData := some { mimeType := "image/jpeg", data := "SECOND" } }]
    { mimeType := "image/jpeg", data := "SECOND" } rfl (by decide)
  rw [h]
  decide

/-- The initial App state: no sessions, no active session, empty working
message list, no send in flight. -/
def emptyState : AppState :=
  { sessions := [], currentSessionId := none, messages := [], isLoading := false }

/-- C3: a stream of fragments each carrying only a text delta finalizes
the in-flight message with content equal to the concatenation of the
deltas in delivery order, starting from the empty placeholder content. -/
theorem text_only_stream_concatenates (st : AppState) (content : String)
    (attachments : List String) (now errTime : Nat) (texts : List String)
    (hguard : sendGuardFails st content attachments = false)
    (hfresh : ∀ m ∈ st.messages, m.id ≠ Nat.repr (now + 1))
    (hne : Nat.repr now ≠ Nat.repr (now + 1)) :
    (sendMessage st content attachments now errTime
        (StreamResult.ok (texts.map mkTextChunk))).messages =
      st.messages ++
        [mkUserMsg now content attachments,
         { mkModelMsg now with content := concatAll texts, isStreaming := false }] := by
  have hpre : ∀ x ∈ st.messages ++ [mkUserMsg now content attachments],
      x.id ≠ Nat.repr (now + 1) := by
    intro x hx
    rcases List.mem_append.mp hx with h | h
    · exact hfresh x h
    · have : x = mkUserMsg now content attachments := by simpa using h
      rw [this]; exact hne
  simp only [sendMessage, hguard, Bool.false_eq_true, if_false, ensureSession_messages]
  rw [runStream_ok_eq _ _ _ _ _ hpre rfl, applyChunks_textOnly]
  simp [mkModelMsg, List.append_assoc]

theorem text_only_stream_concatenates_witness :
    (sendMessage emptyState "oi" [] 0 9
        (StreamResult.ok (["Hello", " world"].map mkTextChunk))).messages =
      [mkUserMsg 0 "oi" [],
       { mkModelMsg 0 with content := concatAll ["Hello", " world"], isStreaming := false }] := by
  have h := text_only_stream_concatenates
    emptyState
    "oi" [] 0 9 ["Hello", " world"] (by decide) (by simp [emptyState]) (by decide)
  simpa using h

/-- C4 (amended): a send passing the no-op guard appends a user-role
message whose content is the given text trimmed of surrounding whitespace
(not the text verbatim) and whose attachments are exactly the given
sequence, in order. -/
theorem send_appends_trimmed_user_message (st : AppState) (content : String)
    (attachments : List String) (now errTime : Nat) (res : StreamResult)
    (hguard : sendGuardFails st content attachments = false)
    (hfresh : ∀ m ∈ st.messages, m.id ≠ Nat.repr (now + 1))
    (hne : Nat.repr now ≠ Nat.repr (now + 1)) :
    (sendMessage st content attachments now errTime res).messages[st.messages.length]? =
      some (mkUserMsg now content attachments) ∧
    (mkUserMsg now content attachments).content = jsTrim content ∧
    (mkUserMsg now content attachments).attachments = attachments := by
  refine ⟨?_, rfl, rfl⟩
  have hpre : ∀ x ∈ st.messages ++ [mkUserMsg now content attachments],
      x.id ≠ Nat.repr (now + 1) := by
    intro x hx
    rcases List.mem_append.mp hx with h | h
    · exact hfresh x h
    · have : x = mkUserMsg now content attachments := by simpa using h
      rw [this]; exact hne
  simp only [sendMessage, hguard, Bool.false_eq_true, if_false, ensureSession_messages]
  cases res with
  | ok chunks =>
      rw [runStream_ok_eq _ _ _ _ _ hpre rfl]
      rw [List.append_assoc]
      rw [List.getElem?_append_right (Nat.le_refl _)]
      simp
  | err consumed =>
      rw [runStream_err_eq _ _ _ _ _ hpre rfl]
      rw [List.append_assoc]
      rw [List.getElem?_append_right (Nat.le_refl _)]
      simp

theorem send_appends_trimmed_user_message_witness :
    (sendMessage emptyState " hi " [] 0 9 (StreamResult.ok [])).messages[0]? =
      some (mkUserMsg 0 " hi " []) ∧
    (mkUserMsg 0 " hi " []).content = jsTrim " hi " ∧
    (mkUserMsg 0 " hi " []).attachments = [] := by
  have h := send_appends_trimmed_user_message
    emptyState
    " hi " [] 0 9 (StreamResult.ok []) (by decide) (by simp [emptyState]) (by decide)
  simpa using h

theorem send_appends_trimmed_user_message_cex :
    ((sendMessage emptyState " hi " [] 0 9 (StreamResult.ok [])).messages[0]?).map
          Message.content = some "hi" ∧ "hi" ≠ " hi " := by
  decide

/-- C1 (amended): a failure after two merged fragments keeps the two
fragments' effects on the in-flight message, leaves that message still
flagged `isStreaming` (the catch block never clears it), appends exactly
one `isError` message with the fixed failure notice after it, and clears
the in-flight send flag. -/
theorem send_failure_keeps_merged_fragments (st : AppState) (content : String)
    (attachments : List String) (now errTime : Nat) (c1 c2 : Chunk)
    (hguard : sendGuardFails st content attachments = false)
    (hfresh : ∀ m ∈ st.messages, m.id ≠ Nat.repr (now + 1))
    (hne : Nat.repr now ≠ Nat.repr (now + 1)) :
    (sendMessage st content attachments now errTime
        (StreamResult.err [c1, c2])).messages =
      st.messages ++
        [mkUserMsg now content attachments,
         applyChunk c2 (applyChunk c1 (mkModelMsg now)),
         mkErrorMsg errTime] ∧
    (applyChunk c2 (applyChunk c1 (mkModelMsg now))).isStreaming = true ∧
    (mkErrorMsg errTime).isError = true ∧
    (mkErrorMsg errTime).content = FAILURE_NOTICE ∧
    (sendMessage st content attachments now errTime
        (StreamResult.err [c1, c2])).isLoading = false := by
  have hpre : ∀ x ∈ st.messages ++ [mkUserMsg now content attachments],
      x.id ≠ Nat.repr (now + 1) := by
    intro x hx
    rcases List.mem_append.mp hx with h | h
    · exact hfresh x h
    · have : x = mkUserMsg now content attachments := by simpa using h
      rw [this]; exact hne
  refine ⟨?_, ?_, rfl, rfl, ?_⟩
  · simp only [sendMessage, hguard, Bool.false_eq_true, if_false, ensureSession_messages]
    rw [runStream_err_eq _ _ _ _ _ hpre rfl]
    simp [applyChunks, List.append_assoc]
  · rw [applyChunk_isStreaming, applyChunk_isStreaming]; rfl
  · simp [sendMessage, hguard]

theorem send_failure_keeps_merged_fragments_witness :
    (sendMessage emptyState "oi" [] 0 9
        (StreamResult.err [mkTextChunk "a", mkTextChunk "b"])).messages =
      [mkUserMsg 0 "oi" [],
       applyChunk (mkTextChunk "b") (applyChunk (mkTextChunk "a") (mkModelMsg 0)),
       mkErrorMsg 9] ∧
    (applyChunk (mkTextChunk "b") (applyChunk (mkTextChunk "a") (mkModelMsg 0))).isStreaming
      = true := by
  have h := send_failure_keeps_merged_fragments
    emptyState
    "oi" [] 0 9 (mkTextChunk "a") (mkTextChunk "b") (by decide) (by simp [emptyState]) (by decide)
  exact ⟨by simpa using h.1, h.2.1⟩

theorem send_failure_keeps_merged_fragments_cex :
    (((sendMessage emptyState "oi" [] 0 9
        (StreamResult.err [mkTextChunk "a", mkTextChunk "b"])).messages[1]?).map
          Message.isStreaming) = some true := by
  decide

/-- C2 (amended): within a single `handleSendMessage` run started from a
state whose messages are all non-streaming, every observable message-list
state has at most one message with `isStreaming = true`. (The guard does
not hold across sends: a failed send leaves its placeholder streaming
forever, so a subsequent send can exhibit two streaming messages.) -/
theorem at_most_one_streaming_during_send (st : AppState) (content : String)
    (attachments : List String) (now errTime : Nat) (res : StreamResult)
    (h : ∀ m ∈ st.messages, m.isStreaming = false) :
    ∀ l ∈ sendMessageStates st content attachments now errTime res,
      countStreaming l ≤ 1 := by
  intro l hl
  by_cases hg : sendGuardFails st content attachments = true
  · simp [sendMessageStates, hg] at hl
  · have hg' : sendGuardFails st content attachments = false := by
      revert hg; cases sendGuardFails st content attachments <;> simp
    simp only [sendMessageStates, hg', Bool.false_eq_true, if_false,
      ensureSession_messages, List.mem_cons] at hl
    have h1 : countStreaming (st.messages ++ [mkUserMsg now content attachments]) = 0 := by
      rw [countStreaming_append, countStreaming_of_none _ h]
      rfl
    have h2 : countStreaming
        ((st.messages ++ [mkUserMsg now content attachments]) ++ [mkModelMsg now]) = 1 := by
      rw [countStreaming_append, h1]
      rfl
    cases res with
    | ok chunks =>
        rcases hl with rfl | rfl | hl
        · rw [h1]; exact Nat.zero_le _
        · rw [h2]
        · rcases List.mem_append.mp hl with hl | hl
          · rw [countStreaming_mergeStates _ _ _ _ hl, h2]
          · have : l = finalizeStreaming (Nat.repr (now + 1))
                (chunks.foldl (mergeChunk (Nat.repr (now + 1)))
                  ((st.messages ++ [mkUserMsg now content attachments]) ++ [mkModelMsg now])) := by
              simpa using hl
            rw [this]
            calc countStreaming _ ≤ countStreaming
                  (chunks.foldl (mergeChunk (Nat.repr (now + 1)))
                    ((st.messages ++ [mkUserMsg now content attachments]) ++ [mkModelMsg now])) :=
                countStreaming_finalize_le _ _
              _ = 1 := by rw [countStreaming_foldl_merge, h2]
    | err consumed =>
        rcases hl with rfl | rfl | hl
        · rw [h1]; exact Nat.zero_le _
        · rw [h2]
        · rcases List.mem_append.mp hl with hl | hl
          · rw [countStreaming_mergeStates _ _ _ _ hl, h2]
          · have : l = (consumed.foldl (mergeChunk (Nat.repr (now + 1)))
                ((st.messages ++ [mkUserMsg now content attachments]) ++ [mkModelMsg now]))
                ++ [mkErrorMsg errTime] := by
              simpa using hl
            rw [this, countStreaming_append, countStreaming_foldl_merge, h2]
            have h3 : countStreaming [mkErrorMsg errTime] = 0 := rfl
            omega

theorem at_most_one_streaming_during_send_witness :
    countStreaming
      ((sendMessageStates emptyState "a" [] 2 4 (StreamResult.err [])).getD 1 []) ≤ 1 :=
  at_most_one_streaming_during_send emptyState "a" [] 2 4 (StreamResult.err [])
    (by simp [emptyState]) _ (by decide)

theorem at_most_one_streaming_during_send_cex :
    countStreaming
      ((sendMessageStates (sendMessage emptyState "a" [] 2 4 (StreamResult.err []))
          "b" [] 6 8 (StreamResult.ok [])).getD 1 []) = 2 := by
  decide

theorem hydrate_serialize_message (m : Message) :
    hydrateMessage (serializeMessage m) = m := rfl

theorem hydrate_serialize_session (s : ChatSession) :
    hydrateSession (serializeSession s) = s := by
  cases s with
  | mk i t msgs cA =>
      simp only [hydrateSession, serializeSession, List.map_map]
      rw [show hydrateMessage ∘ serializeMessage = id from funext hydrate_serialize_message,
        List.map_id]

theorem sortDesc_sorted_fix (ss : List ChatSession)
    (hs : ss.Pairwise (fun a b => b.createdAt ≤ a.createdAt)) :
    sortByCreatedAtDesc ss = ss := by
  induction ss with
  | nil => rfl
  | cons s ts ih =>
      rw [sortByCreatedAtDesc, ih (List.pairwise_cons.mp hs).2]
      cases ts with
      | nil => rfl
      | cons t ts2 =>
          have ht : t.createdAt ≤ s.createdAt :=
            (List.pairwise_cons.mp hs).1 t (by simp)
          simp [insertByCreatedAtDesc, ht]

/-- C9 (amended): save followed by load reproduces the collection after
re-sorting by `createdAt` descending; in particular, on any collection
already ordered newest-first (the store's display order) the round-trip is
the identity — every field, every message timestamp and every `createdAt`
is reproduced exactly. -/
theorem save_load_roundtrip_sorted (ss : List ChatSession)
    (hs : ss.Pairwise (fun a b => b.createdAt ≤ a.createdAt)) :
    loadSessions (saveSessions ss) = ss := by
  unfold loadSessions saveSessions
  rw [List.map_map]
  have hmap : ss.map (hydrateSession ∘ serializeSession) = ss := by
    rw [show hydrateSession ∘ serializeSession = id from funext hydrate_serialize_session,
      List.map_id]
  rw [hmap]
  exact sortDesc_sorted_fix ss hs

theorem save_load_roundtrip_sorted_witness :
    loadSessions (saveSessions
        [⟨"b", "t2", [⟨"m1", Role.user, "oi", 5, false, false, none, none, []⟩], 2⟩,
         ⟨"a", "t1", [], 1⟩]) =
      [⟨"b", "t2", [⟨"m1", Role.user, "oi", 5, false, false, none, none, []⟩], 2⟩,
       ⟨"a", "t1", [], 1⟩] :=
  save_load_roundtrip_sorted _ (by decide)

theorem save_load_roundtrip_cex :
    loadSessions (saveSessions [⟨"a", "t1", [], 1⟩, ⟨"b", "t2", [], 2⟩]) ≠
      [⟨"a", "t1", [], 1⟩, ⟨"b", "t2", [], 2⟩] := by
  decide
